import Mathlib

/-!
Verification of the financial calculation engine of the FinanceCalculator
repository: the mortgage engine (`mortgage-calculations`), the credit-card
engine (`credit-calculations`) and the debt-payment allocator, shallowly
embedded over `ℚ`.  JavaScript numbers are modelled as exact rationals;
`Math.round(x * 100) / 100` becomes `round2` below; `Math.pow (1+r) n` with a
natural exponent becomes `(1+r)^n`; `Infinity` sentinels become an explicit
constructor; the iterative simulations become fuel-structured recursions whose
fuel encodes the source's loop bound.
-/

namespace FinCalc

/-- JavaScript `Math.round(x * 100) / 100`: round to cents, halves up
(`Math.round` is `⌊x + 1/2⌋` on all reals, including negatives). -/
def round2 (x : ℚ) : ℚ := (⌊x * 100 + 1/2⌋ : ℤ) / 100

/-! ## Credit-card engine (`credit-calculations`) -/

/-- `calculateMonthlyInterest(balance, annualInterestRate)`:
`Math.round(balance * monthlyRate * 100) / 100` with
`monthlyRate = annualInterestRate / 100 / 12`. -/
def calculateMonthlyInterest (balance annualInterestRate : ℚ) : ℚ :=
  round2 (balance * (annualInterestRate / 100 / 12))

/-- `calculateMinimumPayment(balance, minimumPercent, minimumAmount)`. -/
def calculateMinimumPayment (balance minimumPercent minimumAmount : ℚ) : ℚ :=
  round2 (max (balance * (minimumPercent / 100)) minimumAmount)

/-- Observable state of the `while` loop of `calculatePayoffTime` when it
returns: months elapsed, accumulated (unrounded) interest, the running
balance, and whether the `if (principalPayment <= 0) break` safety check
fired.  The fuel argument encodes the source's `months < 600` bound
(fuel = 600 - months). -/
structure PayoffLoopState where
  months : ℕ
  totalInterest : ℚ
  balance : ℚ
  safetyBreak : Bool
  deriving DecidableEq, Repr

/-- The `while (currentBalance > 0.01 && months < 600)` loop of
`calculatePayoffTime`, one constructor case per loop test. -/
def payoffLoop (monthlyRate monthlyPayment : ℚ) :
    ℕ → ℚ → ℕ → ℚ → PayoffLoopState
  | 0, bal, months, totInt => ⟨months, totInt, bal, false⟩
  | fuel + 1, bal, months, totInt =>
    if bal > 1/100 then
      let interestCharge := bal * monthlyRate
      let principalPayment := min (monthlyPayment - interestCharge) bal
      let bal' := bal - principalPayment
      let totInt' := totInt + interestCharge
      if principalPayment ≤ 0 then ⟨months + 1, totInt', bal', true⟩
      else payoffLoop monthlyRate monthlyPayment fuel bal' (months + 1) totInt'
    else ⟨months, totInt, bal, false⟩

/-- Result of `calculatePayoffTime`: either a finite record or the
`{months: Infinity, totalInterest: Infinity, totalPaid: Infinity}` sentinel. -/
inductive PayoffTimeOutcome where
  | result (months : ℕ) (totalInterest totalPaid : ℚ)
  | unreachable
  deriving DecidableEq, Repr

/-- `calculatePayoffTime(balance, annualInterestRate, monthlyPayment)`. -/
def calculatePayoffTime (balance annualInterestRate monthlyPayment : ℚ) :
    PayoffTimeOutcome :=
  if monthlyPayment ≤ 0 ∨ balance ≤ 0 then .result 0 0 0
  else if monthlyPayment ≤ calculateMonthlyInterest balance annualInterestRate then
    .unreachable
  else
    let st := payoffLoop (annualInterestRate / 100 / 12) monthlyPayment 600 balance 0 0
    .result st.months (round2 st.totalInterest) (round2 (balance + st.totalInterest))

/-- Calendar date as produced by the JavaScript `Date` constructor used in
`generatePaymentSchedule` (month is 0-based, as in JavaScript).  Day-of-month
overflow normalization is never exercised by the schedule (the day component
is copied unchanged), so it is not modelled. -/
structure SimDate where
  year : ℤ
  month : ℤ
  day : ℤ
  deriving DecidableEq, Repr

/-- `new Date(d.getFullYear(), d.getMonth() + 1, d.getDate())`: advance one
month, with month overflow normalized into the year (floor division, as the
`Date` constructor does). -/
def SimDate.nextMonth (d : SimDate) : SimDate :=
  { year := d.year + (d.month + 1).ediv 12, month := (d.month + 1).emod 12, day := d.day }

/-- One entry of the credit-card payment schedule (`PaymentRecord`). -/
structure PaymentRecord where
  date : SimDate
  amount : ℚ
  interestCharged : ℚ
  principalPaid : ℚ
  remainingBalance : ℚ
  deriving DecidableEq, Repr

/-- The `for (let month = 0; month < maxMonths && currentBalance > 0.01; ...)`
loop of `generatePaymentSchedule`. -/
def scheduleLoop (monthlyRate monthlyPayment : ℚ) :
    ℕ → ℚ → SimDate → List PaymentRecord
  | 0, _, _ => []
  | fuel + 1, bal, currentDate =>
    if bal > 1/100 then
      let interestCharged := bal * monthlyRate
      let principalPaid := min (monthlyPayment - interestCharged) bal
      if principalPaid ≤ 0 then []
      else
        let bal' := bal - principalPaid
        let nextDate := currentDate.nextMonth
        { date := nextDate, amount := monthlyPayment,
          interestCharged := round2 interestCharged,
          principalPaid := round2 principalPaid,
          remainingBalance := round2 bal' } ::
          scheduleLoop monthlyRate monthlyPayment fuel bal' nextDate
    else []

/-- `generatePaymentSchedule(balance, annualInterestRate, monthlyPayment,
maxMonths)`.  The source reads the ambient clock (`let currentDate = new
Date()`); that read is made explicit as the `now` argument. -/
def generatePaymentSchedule (now : SimDate)
    (balance annualInterestRate monthlyPayment : ℚ) (maxMonths : ℕ) :
    List PaymentRecord :=
  scheduleLoop (annualInterestRate / 100 / 12) monthlyPayment maxMonths balance now

/-- `calculateCreditUtilization(balance, creditLimit)`. -/
def calculateCreditUtilization (balance creditLimit : ℚ) : ℚ :=
  if creditLimit ≤ 0 then 0 else round2 (balance / creditLimit * 100)

/-! ## Debt allocator (`calculateOptimalPaymentDistribution` and the two
orderings) -/

/-- Engine-relevant fields of a `CreditCard` (the UI-owned fields—name,
due date, credit limit, colour—play no part in the allocator). -/
structure CreditCard where
  id : String
  balance : ℚ
  interestRate : ℚ
  minimumPayment : ℚ
  deriving DecidableEq, Repr

/-- `calculateDebtAvalanche`: stable sort by `interestRate` descending
(`[...cards].sort((a, b) => b.interestRate - a.interestRate)`). -/
def calculateDebtAvalanche (cards : List CreditCard) : List CreditCard :=
  cards.mergeSort fun a b => decide (b.interestRate ≤ a.interestRate)

/-- `calculateDebtSnowball`: stable sort by `balance` ascending
(`[...cards].sort((a, b) => a.balance - b.balance)`). -/
def calculateDebtSnowball (cards : List CreditCard) : List CreditCard :=
  cards.mergeSort fun a b => decide (a.balance ≤ b.balance)

inductive Strategy where
  | avalanche
  | snowball
  deriving DecidableEq, Repr

/-- The strategy ternary at the head of `calculateOptimalPaymentDistribution`. -/
def sortByStrategy : Strategy → List CreditCard → List CreditCard
  | .avalanche, cards => calculateDebtAvalanche cards
  | .snowball, cards => calculateDebtSnowball cards

/-- One returned allocation `{ cardId, payment }`. -/
structure PaymentAllocation where
  cardId : String
  payment : ℚ
  deriving DecidableEq, Repr, Inhabited

/-- Phase 1 of `calculateOptimalPaymentDistribution`: walk the sorted cards
allocating `Math.min(card.minimumPayment, remainingBudget, card.balance)`
each, returning the allocation list and the remaining budget. -/
def allocateMinimums : List CreditCard → ℚ → List PaymentAllocation × ℚ
  | [], remainingBudget => ([], remainingBudget)
  | card :: rest, remainingBudget =>
    let minPayment := min card.minimumPayment (min remainingBudget card.balance)
    let (ps, r') := allocateMinimums rest (remainingBudget - minPayment)
    (⟨card.id, minPayment⟩ :: ps, r')

/-- Phase 2: `payments.find(p => p.cardId === priorityCard.id)` followed by
`priorityPayment.payment += Math.min(remainingBudget, priorityCard.balance -
priorityPayment.payment)` — update the first allocation whose `cardId`
matches. -/
def addExtraToFirst (targetId : String) (targetBalance extra : ℚ) :
    List PaymentAllocation → List PaymentAllocation
  | [] => []
  | p :: ps =>
    if p.cardId = targetId then
      { p with payment := p.payment + min extra (targetBalance - p.payment) } :: ps
    else p :: addExtraToFirst targetId targetBalance extra ps

/-- `calculateOptimalPaymentDistribution(cards, totalPaymentBudget, strategy)`. -/
def calculateOptimalPaymentDistribution (cards : List CreditCard)
    (totalPaymentBudget : ℚ) (strategy : Strategy) : List PaymentAllocation :=
  let sortedCards := sortByStrategy strategy cards
  let (payments, remainingBudget) := allocateMinimums sortedCards totalPaymentBudget
  if 0 < remainingBudget then
    match sortedCards with
    | [] => payments
    | priorityCard :: _ =>
      addExtraToFirst priorityCard.id priorityCard.balance remainingBudget payments
  else payments

/-! ## Mortgage engine (`mortgage-calculations`) -/

/-- `calculateMonthlyPayment(principal, annualInterestRate, loanTermYears)`:
the annuity formula `P * (r(1+r)^n) / ((1+r)^n - 1)` rounded to cents, with a
straight-line special case for `annualInterestRate === 0`.  Loan terms are
integer years throughout the claims, so `loanTermYears : ℕ`. -/
def calculateMonthlyPayment (principal annualInterestRate : ℚ)
    (loanTermYears : ℕ) : ℚ :=
  if annualInterestRate = 0 then
    round2 (principal / (loanTermYears * 12))
  else
    let monthlyRate := annualInterestRate / 100 / 12
    let numberOfPayments := loanTermYears * 12
    round2 (principal * (monthlyRate * (1 + monthlyRate) ^ numberOfPayments) /
      ((1 + monthlyRate) ^ numberOfPayments - 1))

/-- `calculatePMI(loanAmount, pmiRate)`. -/
def calculatePMI (loanAmount pmiRate : ℚ) : ℚ :=
  round2 (loanAmount * (pmiRate / 100) / 12)

/-- `calculateMonthlyPropertyTax(annualPropertyTax)`. -/
def calculateMonthlyPropertyTax (annualPropertyTax : ℚ) : ℚ :=
  round2 (annualPropertyTax / 12)

/-- `calculateMonthlyInsurance(annualInsurance)`. -/
def calculateMonthlyInsurance (annualInsurance : ℚ) : ℚ :=
  round2 (annualInsurance / 12)

/-- `calculateTotalInterest(monthlyPayment, loanTermYears, principal)`. -/
def calculateTotalInterest (monthlyPayment : ℚ) (loanTermYears : ℕ)
    (principal : ℚ) : ℚ :=
  round2 (monthlyPayment * loanTermYears * 12 - principal)

/-- `MortgageInputs` (pmiRate's `= 0` default is supplied by callers here). -/
structure MortgageInputs where
  loanAmount : ℚ
  downPayment : ℚ
  interestRate : ℚ
  loanTermYears : ℕ
  propertyTax : ℚ
  homeInsurance : ℚ
  pmiRate : ℚ
  deriving DecidableEq, Repr

/-- `MortgageResults`. -/
structure MortgageResults where
  monthlyPayment : ℚ
  principal : ℚ
  interest : ℚ
  monthlyTax : ℚ
  monthlyInsurance : ℚ
  monthlyPMI : ℚ
  totalMonthlyPayment : ℚ
  totalInterest : ℚ
  totalCost : ℚ
  deriving DecidableEq, Repr

/-- `calculateMortgage(inputs)`. -/
def calculateMortgage (inputs : MortgageInputs) : MortgageResults :=
  let actualLoanAmount := inputs.loanAmount - inputs.downPayment
  let monthlyPayment :=
    calculateMonthlyPayment actualLoanAmount inputs.interestRate inputs.loanTermYears
  let monthlyTax := calculateMonthlyPropertyTax inputs.propertyTax
  let monthlyInsurance := calculateMonthlyInsurance inputs.homeInsurance
  let downPaymentPercent := inputs.downPayment / inputs.loanAmount * 100
  let monthlyPMI :=
    if downPaymentPercent < 20 then calculatePMI actualLoanAmount inputs.pmiRate else 0
  let totalInterest :=
    calculateTotalInterest monthlyPayment inputs.loanTermYears actualLoanAmount
  { monthlyPayment := monthlyPayment
    principal := actualLoanAmount
    interest := totalInterest
    monthlyTax := monthlyTax
    monthlyInsurance := monthlyInsurance
    monthlyPMI := monthlyPMI
    totalMonthlyPayment := monthlyPayment + monthlyTax + monthlyInsurance + monthlyPMI
    totalInterest := totalInterest
    totalCost := actualLoanAmount + totalInterest +
      (monthlyTax + monthlyInsurance) * inputs.loanTermYears * 12 }

/-- One entry of the amortization schedule (`AmortizationEntry`). -/
structure AmortizationEntry where
  month : ℕ
  principalPayment : ℚ
  interestPayment : ℚ
  remainingBalance : ℚ
  totalInterestPaid : ℚ
  deriving DecidableEq, Repr, Inhabited

/-- One balance update of `generateAmortizationSchedule`'s loop:
`remainingBalance -= principalPayment` followed by the clamp
`if (remainingBalance < 0) remainingBalance = 0`. -/
def amortStep (monthlyRate monthlyPayment bal : ℚ) : ℚ :=
  let bal' := bal - (monthlyPayment - bal * monthlyRate)
  if bal' < 0 then 0 else bal'

/-- The `for (let month = 1; month <= numberOfPayments; month++)` loop of
`generateAmortizationSchedule`: fuel counts the months still to produce; the
clamp (`amortStep`) precedes the rounding of the pushed entry and feeds the
next iteration. -/
def amortLoop (monthlyRate monthlyPayment : ℚ) :
    ℕ → ℕ → ℚ → ℚ → List AmortizationEntry
  | 0, _, _, _ => []
  | fuel + 1, month, bal, totInt =>
    let interestPayment := bal * monthlyRate
    let principalPayment := monthlyPayment - interestPayment
    let totInt' := totInt + interestPayment
    { month := month
      principalPayment := round2 principalPayment
      interestPayment := round2 interestPayment
      remainingBalance := round2 (amortStep monthlyRate monthlyPayment bal)
      totalInterestPaid := round2 totInt' } ::
      amortLoop monthlyRate monthlyPayment fuel (month + 1)
        (amortStep monthlyRate monthlyPayment bal) totInt'

/-- The running (clamped balance, accumulated unrounded interest) pair of the
amortization loop after a given number of months. -/
def amortRun (monthlyRate monthlyPayment : ℚ) : ℕ → ℚ → ℚ → ℚ × ℚ
  | 0, bal, totInt => (bal, totInt)
  | k + 1, bal, totInt =>
    amortRun monthlyRate monthlyPayment k
      (amortStep monthlyRate monthlyPayment bal) (totInt + bal * monthlyRate)

/-- The clamp-free residual recurrence `c₀ = start`,
`c_{k+1} = c_k·(1+monthlyRate) − monthlyPayment`: the balance the loop would
carry if the negative clamp never fired.  `amortResidual … n ≤ 0` says the
rounded payment amortizes the compounded principal within the term. -/
def amortResidual (monthlyRate monthlyPayment start : ℚ) : ℕ → ℚ
  | 0 => start
  | k + 1 => amortResidual monthlyRate monthlyPayment start k * (1 + monthlyRate) -
      monthlyPayment

/-- `generateAmortizationSchedule(principal, annualInterestRate,
loanTermYears)`. -/
def generateAmortizationSchedule (principal annualInterestRate : ℚ)
    (loanTermYears : ℕ) : List AmortizationEntry :=
  amortLoop (annualInterestRate / 100 / 12)
    (calculateMonthlyPayment principal annualInterestRate loanTermYears)
    (loanTermYears * 12) 1 principal 0

/-- `calculateAffordableHousePrice(monthlyBudget, downPaymentPercent,
interestRate, loanTermYears, monthlyTaxInsurance)`.  Note the source's
zero-rate branch returns `maxLoanAmount / (1 - downPaymentPercent / 100)`
without rounding; only the nonzero-rate branch rounds. -/
def calculateAffordableHousePrice (monthlyBudget downPaymentPercent
    interestRate : ℚ) (loanTermYears : ℕ) (monthlyTaxInsurance : ℚ) : ℚ :=
  let availableForPrincipalInterest := monthlyBudget - monthlyTaxInsurance
  if availableForPrincipalInterest ≤ 0 then 0
  else
    let monthlyRate := interestRate / 100 / 12
    let numberOfPayments := loanTermYears * 12
    if monthlyRate = 0 then
      let maxLoanAmount := availableForPrincipalInterest * numberOfPayments
      maxLoanAmount / (1 - downPaymentPercent / 100)
    else
      let maxLoanAmount := availableForPrincipalInterest *
        ((1 + monthlyRate) ^ numberOfPayments - 1) /
        (monthlyRate * (1 + monthlyRate) ^ numberOfPayments)
      round2 (maxLoanAmount / (1 - downPaymentPercent / 100))

/-! ## Rounding facts -/

theorem round2_le_add (x : ℚ) : round2 x ≤ x + 1/200 := by
  unfold round2
  rw [div_le_iff₀ (by norm_num : (0:ℚ) < 100)]
  have h := Int.floor_le (x * 100 + 1/2)
  linarith

theorem sub_lt_round2 (x : ℚ) : x - 1/200 < round2 x := by
  unfold round2
  rw [lt_div_iff₀ (by norm_num : (0:ℚ) < 100)]
  have h := Int.lt_floor_add_one (x * 100 + 1/2)
  push_cast at h ⊢
  linarith

theorem round2_mono {x y : ℚ} (h : x ≤ y) : round2 x ≤ round2 y := by
  unfold round2
  have hf : (⌊x * 100 + 1/2⌋ : ℤ) ≤ ⌊y * 100 + 1/2⌋ :=
    Int.floor_le_floor (by linarith)
  have hq : ((⌊x * 100 + 1/2⌋ : ℤ) : ℚ) ≤ ((⌊y * 100 + 1/2⌋ : ℤ) : ℚ) :=
    Int.cast_le.mpr hf
  linarith

theorem round2_zero : round2 0 = 0 := by
  norm_num [round2]

theorem round2_nonneg {x : ℚ} (h : 0 ≤ x) : 0 ≤ round2 x :=
  round2_zero ▸ round2_mono h

theorem round2_diff_le (x y : ℚ) : |round2 x - round2 y| ≤ |x - y| + 1/100 := by
  have h1 := round2_le_add x
  have h2 := sub_lt_round2 x
  have h3 := round2_le_add y
  have h4 := sub_lt_round2 y
  have ha : x - y ≤ |x - y| := le_abs_self _
  have hb : -(x - y) ≤ |x - y| := neg_le_abs _
  rw [abs_le]
  constructor <;> linarith

theorem round2_pos {x : ℚ} (h : 1/200 ≤ x) : 1/100 ≤ round2 x := by
  unfold round2
  rw [le_div_iff₀ (by norm_num : (0:ℚ) < 100)]
  have hf : (1 : ℤ) ≤ ⌊x * 100 + 1/2⌋ := Int.le_floor.mpr (by push_cast; linarith)
  have hq : ((1:ℤ):ℚ) ≤ ((⌊x * 100 + 1/2⌋ : ℤ) : ℚ) := Int.cast_le.mpr hf
  push_cast at hq
  linarith

/-! ## Claim C4: the monthly-payment formula -/

/-- C4: `calculateMonthlyPayment(principal, annualRatePct, termYears)` equals
the standard annuity formula `P·r(1+r)^n/((1+r)^n − 1)` rounded to cents
(with `r = annualRatePct/100/12`, `n = termYears×12`); when the rate is 0 it
equals `principal/n` rounded to cents; and
`calculateMonthlyPayment(300000, 0, 30) = 833.33`. -/
theorem claim_C4 (principal annualRatePct : ℚ) (termYears : ℕ) :
    (annualRatePct ≠ 0 →
      calculateMonthlyPayment principal annualRatePct termYears =
        round2 (principal *
          ((annualRatePct/100/12) * (1 + annualRatePct/100/12) ^ (termYears * 12)) /
          ((1 + annualRatePct/100/12) ^ (termYears * 12) - 1))) ∧
    (annualRatePct = 0 →
      calculateMonthlyPayment principal annualRatePct termYears =
        round2 (principal / (termYears * 12))) ∧
    calculateMonthlyPayment 300000 0 30 = 83333/100 := by
  refine ⟨fun h => ?_, fun h => ?_, ?_⟩
  · simp [calculateMonthlyPayment, h]
  · simp [calculateMonthlyPayment, h]
  · norm_num [calculateMonthlyPayment, round2]

/-- Witness for C4 at `principal = 100`, rate `1200`, term `1` (monthly rate
`1`, so `(1+r)^n = 2^12`). -/
theorem claim_C4_witness :
    calculateMonthlyPayment 100 1200 1 =
      round2 (100 * ((1200/100/12) * (1 + 1200/100/12) ^ (1 * 12)) /
        ((1 + 1200/100/12) ^ (1 * 12) - 1)) :=
  (claim_C4 100 1200 1).1 (by norm_num)

/-! ## Claim C10: `generatePaymentSchedule` bounds and empty-result cases -/

theorem scheduleLoop_length_le (monthlyRate monthlyPayment : ℚ) :
    ∀ (fuel : ℕ) (bal : ℚ) (d : SimDate),
      (scheduleLoop monthlyRate monthlyPayment fuel bal d).length ≤ fuel := by
  intro fuel
  induction fuel with
  | zero => intro bal d; simp [scheduleLoop]
  | succ f ih =>
    intro bal d
    simp only [scheduleLoop]
    split
    · split
      · simp
      · simpa using Nat.succ_le_succ (ih _ _)
    · simp

/-- C10: `generatePaymentSchedule` returns at most `maxMonths` entries; when
`balance > 0.01` and `monthlyPayment ≤ balance × annualRatePct/100/12` it
returns the empty list, exactly as it does when the balance is already
`≤ 0.01` — no sentinel distinguishes the two cases. -/
theorem claim_C10 (now : SimDate) (balance annualRatePct monthlyPayment : ℚ)
    (maxMonths : ℕ) :
    (generatePaymentSchedule now balance annualRatePct monthlyPayment maxMonths).length
        ≤ maxMonths ∧
    (1/100 < balance → monthlyPayment ≤ balance * (annualRatePct/100/12) →
      generatePaymentSchedule now balance annualRatePct monthlyPayment maxMonths = []) ∧
    (balance ≤ 1/100 →
      generatePaymentSchedule now balance annualRatePct monthlyPayment maxMonths = []) := by
  refine ⟨scheduleLoop_length_le _ _ _ _ _, fun hb hp => ?_, fun hb => ?_⟩
  · unfold generatePaymentSchedule
    cases maxMonths with
    | zero => simp [scheduleLoop]
    | succ f =>
      simp only [scheduleLoop]
      rw [if_pos hb, if_pos (le_trans (min_le_left _ _) (by linarith))]
  · unfold generatePaymentSchedule
    cases maxMonths with
    | zero => simp [scheduleLoop]
    | succ f =>
      simp only [scheduleLoop]
      rw [if_neg (by linarith)]

/-- Witness for C10 at the spec's unreachable-payoff example
(`balance 5000`, rate `18`, payment `50`): the schedule is empty. -/
theorem claim_C10_witness :
    generatePaymentSchedule ⟨2020, 0, 1⟩ 5000 18 50 120 = [] :=
  (claim_C10 ⟨2020, 0, 1⟩ 5000 18 50 120).2.1 (by norm_num) (by norm_num)

/-! ## Claim C8: determinism / clock dependence of `generatePaymentSchedule` -/

/-- The numeric fields of a `PaymentRecord`, with the clock-derived `date`
dropped. -/
def stripDate (p : PaymentRecord) : ℚ × ℚ × ℚ × ℚ :=
  (p.amount, p.interestCharged, p.principalPaid, p.remainingBalance)

/-- C8 counterexample: the same arguments (`balance 100`, rate `0`, payment
`50`, `maxMonths 1`) produce different outputs when the ambient clock differs
(the `date` fields differ), so `generatePaymentSchedule` does not depend on
its arguments alone. -/
theorem claim_C8_counterexample :
    generatePaymentSchedule ⟨2020, 0, 15⟩ 100 0 50 1 ≠
      generatePaymentSchedule ⟨2021, 0, 15⟩ 100 0 50 1 := by
  have hsched : ∀ d : SimDate, generatePaymentSchedule d 100 0 50 1 =
      [{ date := d.nextMonth, amount := 50, interestCharged := 0,
         principalPaid := 50, remainingBalance := 50 }] := by
    intro d
    unfold generatePaymentSchedule
    rw [show (1:ℕ) = 0 + 1 from rfl, scheduleLoop]
    rw [if_pos (by norm_num), if_neg (by norm_num [min_def])]
    norm_num [scheduleLoop, round2, min_def]
  intro h
  rw [hsched ⟨2020, 0, 15⟩, hsched ⟨2021, 0, 15⟩] at h
  simp only [List.cons.injEq, PaymentRecord.mk.injEq, SimDate.nextMonth,
    SimDate.mk.injEq] at h
  omega

theorem scheduleLoop_map_stripDate (monthlyRate monthlyPayment : ℚ) :
    ∀ (fuel : ℕ) (bal : ℚ) (d d' : SimDate),
      (scheduleLoop monthlyRate monthlyPayment fuel bal d).map stripDate =
      (scheduleLoop monthlyRate monthlyPayment fuel bal d').map stripDate := by
  intro fuel
  induction fuel with
  | zero => intros; simp [scheduleLoop]
  | succ f ih =>
    intro bal d d'
    simp only [scheduleLoop]
    split
    · split
      · simp
      · simp only [List.map_cons, stripDate]
        exact congrArg _ (ih _ _ _)
    · simp

/-- C8 amended: every field of every entry except the clock-derived `date`
depends only on the arguments — mapping `stripDate` over the schedule yields
the same list for any two ambient clock values (and the engine's other
calculation functions take no clock at all). -/
theorem claim_C8_amended (now now' : SimDate)
    (balance annualRatePct monthlyPayment : ℚ) (maxMonths : ℕ) :
    (generatePaymentSchedule now balance annualRatePct monthlyPayment maxMonths).map
        stripDate =
    (generatePaymentSchedule now' balance annualRatePct monthlyPayment maxMonths).map
        stripDate :=
  scheduleLoop_map_stripDate _ _ _ _ _ _

/-! ## Claim C7: `calculateAffordableHousePrice` branches and rounding -/

/-- C7 counterexample: at `(1000, 3, 0, 1, 0)` the budget is positive and the
rate is zero, and the returned price `1200000/97` is not a whole number of
cents (it is not a fixed point of `round2`), so the zero-rate branch does not
round to cents as claimed. -/
theorem claim_C7_counterexample :
    0 < (1000:ℚ) - 0 ∧
    calculateAffordableHousePrice 1000 3 0 1 0 = 1200000/97 ∧
    round2 (calculateAffordableHousePrice 1000 3 0 1 0) ≠
      calculateAffordableHousePrice 1000 3 0 1 0 := by
  have hval : calculateAffordableHousePrice 1000 3 0 1 0 = 1200000/97 := by
    norm_num [calculateAffordableHousePrice]
  refine ⟨by norm_num, hval, ?_⟩
  rw [hval]
  norm_num [round2]

/-- C7 amended: `calculateAffordableHousePrice` returns 0 when the available
budget is ≤ 0; with a zero rate it returns `available × n / (1 −
downPaymentPct/100)` **unrounded**; with a nonzero rate it returns the
inverse-annuity price rounded to cents. -/
theorem claim_C7_amended (monthlyBudget downPaymentPct annualRatePct : ℚ)
    (termYears : ℕ) (monthlyTaxInsurance : ℚ) :
    (monthlyBudget - monthlyTaxInsurance ≤ 0 →
      calculateAffordableHousePrice monthlyBudget downPaymentPct annualRatePct
        termYears monthlyTaxInsurance = 0) ∧
    (0 < monthlyBudget - monthlyTaxInsurance → annualRatePct = 0 →
      calculateAffordableHousePrice monthlyBudget downPaymentPct annualRatePct
        termYears monthlyTaxInsurance =
      (monthlyBudget - monthlyTaxInsurance) * ((termYears * 12 : ℕ) : ℚ) /
        (1 - downPaymentPct / 100)) ∧
    (0 < monthlyBudget - monthlyTaxInsurance → annualRatePct ≠ 0 →
      calculateAffordableHousePrice monthlyBudget downPaymentPct annualRatePct
        termYears monthlyTaxInsurance =
      round2 ((monthlyBudget - monthlyTaxInsurance) *
        ((1 + annualRatePct/100/12) ^ (termYears * 12) - 1) /
        ((annualRatePct/100/12) * (1 + annualRatePct/100/12) ^ (termYears * 12)) /
        (1 - downPaymentPct / 100))) := by
  refine ⟨fun h => ?_, fun h h0 => ?_, fun h h0 => ?_⟩
  · simp only [calculateAffordableHousePrice]
    rw [if_pos h]
  · simp only [calculateAffordableHousePrice]
    rw [if_neg (not_le.mpr h), if_pos (by rw [h0]; norm_num)]
  · simp only [calculateAffordableHousePrice]
    rw [if_neg (not_le.mpr h), if_neg (by simp [div_eq_zero_iff, h0])]

/-- Witness for C7 at the zero-rate input `(1000, 3, 0, 1, 0)`. -/
theorem claim_C7_witness :
    calculateAffordableHousePrice 1000 3 0 1 0 =
      ((1000:ℚ) - 0) * ((1 * 12 : ℕ) : ℚ) / (1 - 3 / 100) :=
  (claim_C7_amended 1000 3 0 1 0).2.1 (by norm_num) rfl

/-! ## Claim C6: PMI threshold in `calculateMortgage` -/

/-- C6 counterexample: at `loanAmount 1`, `downPayment 0`, `pmiRate 0.5` the
down-payment ratio `0 < 0.20` and the PMI rate is positive, yet the monthly
PMI `round2(1 × 0.005 / 12)` rounds to `0` — refuting `monthlyPMI > 0`. -/
theorem claim_C6_counterexample :
    (0:ℚ) / 1 < 20/100 ∧ (0:ℚ) < 1/2 ∧
    (calculateMortgage ⟨1, 0, 0, 30, 0, 0, 1/2⟩).monthlyPMI = 0 := by
  refine ⟨by norm_num, by norm_num, ?_⟩
  norm_num [calculateMortgage, calculatePMI, round2]

/-- C6 amended: `monthlyPMI = 0` whenever `downPayment/loanAmount ≥ 0.20`;
and `monthlyPMI > 0` whenever `downPayment/loanAmount < 0.20` **and** the
unrounded monthly PMI `(loanAmount − downPayment) × (pmiRate/100) / 12` is at
least half a cent (so that rounding to cents cannot collapse it to zero). -/
theorem claim_C6_amended (inputs : MortgageInputs) :
    (20/100 ≤ inputs.downPayment / inputs.loanAmount →
      (calculateMortgage inputs).monthlyPMI = 0) ∧
    (inputs.downPayment / inputs.loanAmount < 20/100 →
      1/200 ≤ (inputs.loanAmount - inputs.downPayment) * (inputs.pmiRate / 100) / 12 →
      0 < (calculateMortgage inputs).monthlyPMI) := by
  constructor
  · intro h
    simp only [calculateMortgage]
    rw [if_neg (not_lt.mpr (by linarith))]
  · intro h hhalf
    simp only [calculateMortgage]
    rw [if_pos (by linarith)]
    exact lt_of_lt_of_le (by norm_num) (round2_pos hhalf)

/-- Witness for C6 at `loanAmount 100`, `downPayment 10`, `pmiRate 0.5`:
ratio 10% < 20% and the unrounded PMI is 0.0375 ≥ half a cent, so the
returned PMI is positive. -/
theorem claim_C6_witness :
    0 < (calculateMortgage ⟨100, 10, 0, 30, 0, 0, 1/2⟩).monthlyPMI :=
  (claim_C6_amended ⟨100, 10, 0, 30, 0, 0, 1/2⟩).2 (by norm_num) (by norm_num)

/-! ## Claim C5: total payments cover principal -/

/-- C5 counterexample: at `principal 99.984`, rate `0`, term `1` the rounded
payment is `8.33` and `8.33 × 1 × 12 = 99.96 < 99.984` — the claimed
inequality `payment × term × 12 ≥ principal` fails. -/
theorem claim_C5_counterexample :
    (0:ℚ) < 99984/1000 ∧
    calculateMonthlyPayment (99984/1000) 0 1 * 1 * 12 < 99984/1000 := by
  constructor
  · norm_num
  · norm_num [calculateMonthlyPayment, round2]

/-- The annuity factor dominates `1/n`: for `x = 1 + mr` with `mr > 0` and
`n ≥ 1`, `x^n − 1 ≤ n · mr · x^n` (geometric-sum bound). -/
theorem annuity_den_le {mr : ℚ} (hmr : 0 < mr) (n : ℕ) :
    (1 + mr) ^ n - 1 ≤ (n : ℚ) * mr * (1 + mr) ^ n := by
  have hx : (1:ℚ) ≤ 1 + mr := by linarith
  have hsum : ∑ i ∈ Finset.range n, (1 + mr) ^ i ≤ (n : ℚ) * (1 + mr) ^ n := by
    calc ∑ i ∈ Finset.range n, (1 + mr) ^ i
        ≤ ∑ _i ∈ Finset.range n, (1 + mr) ^ n := by
          refine Finset.sum_le_sum fun i hi => ?_
          exact pow_le_pow_right₀ hx (le_of_lt (Finset.mem_range.mp hi))
      _ = (n : ℚ) * (1 + mr) ^ n := by
          rw [Finset.sum_const, Finset.card_range, nsmul_eq_mul]
  have hgeom : (∑ i ∈ Finset.range n, (1 + mr) ^ i) * ((1 + mr) - 1) =
      (1 + mr) ^ n - 1 := geom_sum_mul (1 + mr) n
  have : (∑ i ∈ Finset.range n, (1 + mr) ^ i) * mr ≤ (n : ℚ) * (1 + mr) ^ n * mr :=
    mul_le_mul_of_nonneg_right hsum (le_of_lt hmr)
  calc (1 + mr) ^ n - 1 = (∑ i ∈ Finset.range n, (1 + mr) ^ i) * mr := by
        rw [← hgeom]; ring_nf
    _ ≤ (n : ℚ) * (1 + mr) ^ n * mr := this
    _ = (n : ℚ) * mr * (1 + mr) ^ n := by ring

/-- C5 amended: for every `principal ≥ 0`, rate ≥ 0 and integer term > 0,
`calculateMonthlyPayment × termYears × 12` covers the principal up to the
cent-rounding loss of at most half a cent per month:
`payment × term × 12 ≥ principal − (term × 12)/200`.  (The unrounded annuity
payment satisfies the original inequality; rounding can lose up to `1/200`
per payment, as the counterexample shows.) -/
theorem claim_C5_amended (principal annualRatePct : ℚ) (termYears : ℕ)
    (hP : 0 ≤ principal) (hr : 0 ≤ annualRatePct) (ht : 0 < termYears) :
    principal - ((termYears * 12 : ℕ) : ℚ) / 200 ≤
      calculateMonthlyPayment principal annualRatePct termYears *
        (termYears : ℚ) * 12 := by
  have hn : (0:ℚ) < ((termYears * 12 : ℕ) : ℚ) := by
    have : 0 < termYears * 12 := by omega
    exact_mod_cast this
  set nq : ℚ := ((termYears * 12 : ℕ) : ℚ) with hnq
  have hkey : principal / nq - 1/200 <
      calculateMonthlyPayment principal annualRatePct termYears := by
    rcases eq_or_lt_of_le hr with h0 | hpos
    · rw [calculateMonthlyPayment, if_pos h0.symm]
      have hcast : ((termYears : ℚ) * 12) = nq := by rw [hnq]; push_cast; ring
      rw [hcast]
      exact sub_lt_round2 (principal / nq)
    · rw [calculateMonthlyPayment, if_neg (ne_of_gt hpos)]
      have hmr : (0:ℚ) < annualRatePct / 100 / 12 := by positivity
      set mr : ℚ := annualRatePct / 100 / 12 with hmrdef
      have hx1 : (1:ℚ) < 1 + mr := by linarith
      have hxn : (1:ℚ) < (1 + mr) ^ (termYears * 12) :=
        one_lt_pow₀ hx1 (by omega)
      have hden : (0:ℚ) < (1 + mr) ^ (termYears * 12) - 1 := by linarith
      have hfrac : principal / nq ≤
          principal * (mr * (1 + mr) ^ (termYears * 12)) /
            ((1 + mr) ^ (termYears * 12) - 1) := by
        rw [div_le_div_iff₀ hn hden]
        have hb := annuity_den_le hmr (termYears * 12)
        have := mul_le_mul_of_nonneg_left hb hP
        calc principal * ((1 + mr) ^ (termYears * 12) - 1)
            ≤ principal * (((termYears * 12 : ℕ) : ℚ) * mr *
                (1 + mr) ^ (termYears * 12)) := this
          _ = principal * (mr * (1 + mr) ^ (termYears * 12)) * nq := by
              rw [hnq]; ring
      have := sub_lt_round2 (principal * (mr * (1 + mr) ^ (termYears * 12)) /
        ((1 + mr) ^ (termYears * 12) - 1))
      linarith
  have hmul := mul_lt_mul_of_pos_right hkey hn
  have hexp : (principal / nq - 1/200) * nq = principal - nq / 200 := by
    field_simp
    ring
  rw [hexp] at hmul
  have hcast2 : calculateMonthlyPayment principal annualRatePct termYears * nq =
      calculateMonthlyPayment principal annualRatePct termYears *
        (termYears : ℚ) * 12 := by
    rw [hnq]; push_cast; ring
  rw [hcast2] at hmul
  exact le_of_lt hmul

/-- Witness for C5 (amended) at `(300000, 0, 30)`:
`299998.2 ≤ 833.33 × 30 × 12`. -/
theorem claim_C5_witness :
    (300000:ℚ) - ((30 * 12 : ℕ) : ℚ) / 200 ≤
      calculateMonthlyPayment 300000 0 30 * (30 : ℚ) * 12 :=
  claim_C5_amended 300000 0 30 (by norm_num) le_rfl (by norm_num)

/-! ## Claim C2: `calculatePayoffTime` guards, sentinel, and loop stopping -/

/-- The payoff loop runs at most `fuel` further months, and when it stops
before exhausting the fuel, either the balance has reached the `0.01`
epsilon or the `principalPayment ≤ 0` safety break fired. -/
theorem payoffLoop_bound (monthlyRate monthlyPayment : ℚ) :
    ∀ (fuel : ℕ) (bal : ℚ) (months : ℕ) (totInt : ℚ),
      (payoffLoop monthlyRate monthlyPayment fuel bal months totInt).months ≤
          months + fuel ∧
      ((payoffLoop monthlyRate monthlyPayment fuel bal months totInt).months <
          months + fuel →
        (payoffLoop monthlyRate monthlyPayment fuel bal months totInt).balance ≤
            1/100 ∨
        (payoffLoop monthlyRate monthlyPayment fuel bal months totInt).safetyBreak =
            true) := by
  intro fuel
  induction fuel with
  | zero =>
    intro bal months ti
    exact ⟨by simp [payoffLoop], fun h => absurd h (by simp [payoffLoop])⟩
  | succ f ih =>
    intro bal months ti
    by_cases h1 : bal > 1/100
    · by_cases h2 : min (monthlyPayment - bal * monthlyRate) bal ≤ 0
      · simp only [payoffLoop, if_pos h1, if_pos h2]
        exact ⟨by omega, fun _ => Or.inr trivial⟩
      · simp only [payoffLoop, if_pos h1, if_neg h2]
        obtain ⟨ha, hb⟩ := ih (bal - min (monthlyPayment - bal * monthlyRate) bal)
          (months + 1) (ti + bal * monthlyRate)
        exact ⟨by omega, fun h => hb (by omega)⟩
    · simp only [payoffLoop, if_neg h1]
      exact ⟨by omega, fun _ => Or.inl (not_lt.mp h1)⟩

/-- C2 counterexample: at `balance 5000.30`, rate `18`, payment `75.004`, the
guards pass (payment exceeds the first-period interest `75.00` computed by
`calculateMonthlyInterest`), yet the loop stops after one month with the
running balance still `5000.3005 > 0.01` — the safety break, not the claimed
epsilon/cap conditions, ends the loop. -/
theorem claim_C2_counterexample :
    (0:ℚ) < 500030/100 ∧ (0:ℚ) < 75004/1000 ∧
    calculateMonthlyInterest (500030/100) 18 < 75004/1000 ∧
    (payoffLoop (18/100/12) (75004/1000) 600 (500030/100) 0 0).months < 600 ∧
    ¬ ((payoffLoop (18/100/12) (75004/1000) 600 (500030/100) 0 0).balance ≤
        1/100) := by
  have hloop : payoffLoop (18/100/12) (75004/1000) 600 (500030/100) 0 0 =
      ⟨1, 0 + 500030/100 * (18/100/12),
        500030/100 - min ((75004/1000) - 500030/100 * (18/100/12)) (500030/100),
        true⟩ := by
    rw [show (600:ℕ) = 599 + 1 from rfl, payoffLoop]
    rw [if_pos (by norm_num), if_pos (by rw [min_le_iff]; left; norm_num)]
  refine ⟨by norm_num, by norm_num, ?_, ?_, ?_⟩
  · norm_num [calculateMonthlyInterest, round2]
  · rw [hloop]; norm_num
  · rw [hloop]; norm_num [min_def]

/-- C2 amended: the zero-result and unreachable-sentinel cases are as
claimed (with the first-period interest being `calculateMonthlyInterest`'s
cent-rounded value); in every other case the function returns the loop's
result with `months ≤ 600`, but the loop stops as soon as the running balance
is ≤ 0.01, **or** the 600-iteration cap is reached, **or** the
`principalPayment ≤ 0` safety break fires (which can happen when the payment
exceeds the rounded first-month interest but not the exact accrual). -/
theorem claim_C2_amended (balance annualRatePct monthlyPayment : ℚ) :
    (monthlyPayment ≤ 0 ∨ balance ≤ 0 →
      calculatePayoffTime balance annualRatePct monthlyPayment = .result 0 0 0) ∧
    (0 < balance → 0 < monthlyPayment →
      monthlyPayment ≤ calculateMonthlyInterest balance annualRatePct →
      calculatePayoffTime balance annualRatePct monthlyPayment = .unreachable) ∧
    (0 < balance → 0 < monthlyPayment →
      calculateMonthlyInterest balance annualRatePct < monthlyPayment →
      (payoffLoop (annualRatePct/100/12) monthlyPayment 600 balance 0 0).months
          ≤ 600 ∧
      ((payoffLoop (annualRatePct/100/12) monthlyPayment 600 balance 0 0).months
          < 600 →
        (payoffLoop (annualRatePct/100/12) monthlyPayment 600 balance 0 0).balance
            ≤ 1/100 ∨
        (payoffLoop (annualRatePct/100/12) monthlyPayment 600 balance 0 0).safetyBreak
            = true) ∧
      calculatePayoffTime balance annualRatePct monthlyPayment =
        .result
          (payoffLoop (annualRatePct/100/12) monthlyPayment 600 balance 0 0).months
          (round2 (payoffLoop (annualRatePct/100/12) monthlyPayment
            600 balance 0 0).totalInterest)
          (round2 (balance + (payoffLoop (annualRatePct/100/12) monthlyPayment
            600 balance 0 0).totalInterest))) := by
  refine ⟨fun h => ?_, fun hb hp hle => ?_, fun hb hp hgt => ?_⟩
  · rw [calculatePayoffTime, if_pos h]
  · rw [calculatePayoffTime, if_neg (by push_neg; exact ⟨hp, hb⟩), if_pos hle]
  · obtain ⟨h1, h2⟩ :=
      payoffLoop_bound (annualRatePct/100/12) monthlyPayment 600 balance 0 0
    refine ⟨by simpa using h1, fun hlt => h2 (by simpa using hlt), ?_⟩
    rw [calculatePayoffTime, if_neg (by push_neg; exact ⟨hp, hb⟩),
      if_neg (not_le.mpr hgt)]

/-- Witness for C2 (amended) at `(1000, 12, 600)`: guards pass and the
function returns the loop's observable result with its month count ≤ 600. -/
theorem claim_C2_witness :
    (payoffLoop (12/100/12) 600 600 1000 0 0).months ≤ 600 ∧
    calculatePayoffTime 1000 12 600 =
      .result (payoffLoop (12/100/12) 600 600 1000 0 0).months
        (round2 (payoffLoop (12/100/12) 600 600 1000 0 0).totalInterest)
        (round2 (1000 + (payoffLoop (12/100/12) 600 600 1000 0 0).totalInterest)) := by
  have h := (claim_C2_amended 1000 12 600).2.2 (by norm_num) (by norm_num)
    (by norm_num [calculateMonthlyInterest, round2])
  exact ⟨h.1, h.2.2⟩

/-! ## Claim C3: amortization-schedule invariants -/

theorem amortStep_nonneg (monthlyRate monthlyPayment bal : ℚ) :
    0 ≤ amortStep monthlyRate monthlyPayment bal := by
  simp only [amortStep]
  split
  · exact le_refl 0
  · linarith [not_lt.mp (by assumption :
      ¬ (bal - (monthlyPayment - bal * monthlyRate) < 0))]

theorem amortStep_le_self {monthlyRate monthlyPayment bal : ℚ}
    (hbal : 0 ≤ bal) (hmin : bal * monthlyRate ≤ monthlyPayment) :
    amortStep monthlyRate monthlyPayment bal ≤ bal := by
  simp only [amortStep]
  split
  · exact hbal
  · linarith

theorem amortStep_le_clamp {monthlyRate monthlyPayment bal x : ℚ}
    (h : bal - (monthlyPayment - bal * monthlyRate) ≤ x) :
    amortStep monthlyRate monthlyPayment bal ≤ max 0 x := by
  simp only [amortStep]
  split
  · exact le_max_left 0 x
  · exact le_trans h (le_max_right 0 x)

theorem amortRun_fst_nonneg (monthlyRate monthlyPayment : ℚ) :
    ∀ (k : ℕ) (bal totInt : ℚ), 0 ≤ bal →
      0 ≤ (amortRun monthlyRate monthlyPayment k bal totInt).1 := by
  intro k
  induction k with
  | zero => intro bal ti h; exact h
  | succ n ih =>
    intro bal ti _
    exact ih _ _ (amortStep_nonneg _ _ _)

theorem amortResidual_shift (monthlyRate monthlyPayment : ℚ) :
    ∀ (k : ℕ) (c : ℚ),
      amortResidual monthlyRate monthlyPayment c (k + 1) =
      amortResidual monthlyRate monthlyPayment
        (c * (1 + monthlyRate) - monthlyPayment) k := by
  intro k
  induction k with
  | zero => intro c; rfl
  | succ n ih =>
    intro c
    show amortResidual monthlyRate monthlyPayment c (n + 1) * (1 + monthlyRate) -
        monthlyPayment = _
    rw [ih c]
    rfl

theorem amortRun_fst_le_residual {monthlyRate monthlyPayment : ℚ}
    (hmr : 0 ≤ monthlyRate) (hM : 0 ≤ monthlyPayment) :
    ∀ (k : ℕ) (bal totInt c : ℚ), bal ≤ max 0 c →
      (amortRun monthlyRate monthlyPayment k bal totInt).1 ≤
        max 0 (amortResidual monthlyRate monthlyPayment c k) := by
  intro k
  induction k with
  | zero => intro bal ti c h; exact h
  | succ n ih =>
    intro bal ti c h
    have hx : (1:ℚ) ≤ 1 + monthlyRate := by linarith
    have hstep : amortStep monthlyRate monthlyPayment bal ≤
        max 0 (c * (1 + monthlyRate) - monthlyPayment) := by
      have h1 : bal - (monthlyPayment - bal * monthlyRate) ≤
          max 0 c * (1 + monthlyRate) - monthlyPayment := by
        have := mul_le_mul_of_nonneg_right h (by linarith : (0:ℚ) ≤ 1 + monthlyRate)
        nlinarith
      rcases le_or_lt 0 c with hc | hc
      · have hmaxc : max 0 c = c := max_eq_right hc
        rw [hmaxc] at h1
        exact amortStep_le_clamp h1
      · have hmaxc : max 0 c = 0 := max_eq_left (le_of_lt hc)
        rw [hmaxc] at h1
        have h2 := amortStep_le_clamp h1
        have h3 : max 0 ((0:ℚ) * (1 + monthlyRate) - monthlyPayment) = 0 := by
          rw [max_eq_left]; nlinarith
        rw [h3] at h2
        exact le_trans h2 (le_max_left _ _)
    have := ih (amortStep monthlyRate monthlyPayment bal) (ti + bal * monthlyRate)
      (c * (1 + monthlyRate) - monthlyPayment) hstep
    rw [amortResidual_shift]
    exact this

theorem amortLoop_length (monthlyRate monthlyPayment : ℚ) :
    ∀ (fuel month : ℕ) (bal totInt : ℚ),
      (amortLoop monthlyRate monthlyPayment fuel month bal totInt).length = fuel := by
  intro fuel
  induction fuel with
  | zero => intros; rfl
  | succ n ih => intro month bal ti; simp [amortLoop, ih]

theorem amortLoop_head_remainingBalance (monthlyRate monthlyPayment : ℚ)
    (fuel month : ℕ) (bal totInt : ℚ) :
    ∀ y ∈ (amortLoop monthlyRate monthlyPayment (fuel + 1) month bal totInt).head?,
      y.remainingBalance = round2 (amortStep monthlyRate monthlyPayment bal) := by
  intro y hy
  simp only [amortLoop, List.head?_cons, Option.mem_def, Option.some.injEq] at hy
  rw [← hy]

theorem amortLoop_chain {monthlyRate monthlyPayment : ℚ} (hmr : 0 ≤ monthlyRate) :
    ∀ (fuel month : ℕ) (bal totInt : ℚ), 0 ≤ bal →
      bal * monthlyRate ≤ monthlyPayment →
      List.Chain' (fun a b => b.remainingBalance ≤ a.remainingBalance)
        (amortLoop monthlyRate monthlyPayment fuel month bal totInt) := by
  intro fuel
  induction fuel with
  | zero => intros; simp [amortLoop]
  | succ n ih =>
    intro month bal ti hbal hmin
    have hstep_nonneg := amortStep_nonneg monthlyRate monthlyPayment bal
    have hstep_le := amortStep_le_self hbal hmin
    have hstep_min : amortStep monthlyRate monthlyPayment bal * monthlyRate ≤
        monthlyPayment :=
      le_trans (mul_le_mul_of_nonneg_right hstep_le hmr) hmin
    refine List.chain'_cons'.mpr ⟨?_, ih (month + 1) _ _ hstep_nonneg hstep_min⟩
    intro y hy
    cases n with
    | zero => simp [amortLoop] at hy
    | succ m =>
      rw [amortLoop_head_remainingBalance monthlyRate monthlyPayment m (month + 1)
        (amortStep monthlyRate monthlyPayment bal) (ti + bal * monthlyRate) y hy]
      exact round2_mono (amortStep_le_self hstep_nonneg hstep_min)

theorem amortLoop_getLastD (monthlyRate monthlyPayment : ℚ) (d : AmortizationEntry) :
    ∀ (fuel month : ℕ) (bal totInt : ℚ),
      ((amortLoop monthlyRate monthlyPayment (fuel + 1) month bal
          totInt).getLastD d).remainingBalance =
        round2 (amortRun monthlyRate monthlyPayment (fuel + 1) bal totInt).1 ∧
      ((amortLoop monthlyRate monthlyPayment (fuel + 1) month bal
          totInt).getLastD d).totalInterestPaid =
        round2 (amortRun monthlyRate monthlyPayment (fuel + 1) bal totInt).2 := by
  intro fuel
  induction fuel with
  | zero =>
    intro month bal ti
    constructor <;> rfl
  | succ n ih =>
    intro month bal ti
    have hcons : amortLoop monthlyRate monthlyPayment (n + 1 + 1) month bal ti =
        _ :: amortLoop monthlyRate monthlyPayment (n + 1) (month + 1)
          (amortStep monthlyRate monthlyPayment bal) (ti + bal * monthlyRate) := rfl
    rw [hcons, List.getLastD_cons]
    exact ih (month + 1) (amortStep monthlyRate monthlyPayment bal)
      (ti + bal * monthlyRate)

/-- The degenerate amortization schedule at principal `0.004`, rate `1200`,
term `1`: the cent-rounded payment is `0`, so the balance doubles every
month; the twelve entries, computed exactly. -/
theorem amortScheduleDegenerate_eq :
    generateAmortizationSchedule (4/1000) 1200 1 =
      [⟨1, 0, 0, 1/100, 0⟩,
       ⟨2, (-1/100), 1/100, 1/50, 1/100⟩,
       ⟨3, (-1/50), 1/50, 3/100, 3/100⟩,
       ⟨4, (-3/100), 3/100, 3/50, 3/50⟩,
       ⟨5, (-3/50), 3/50, 13/100, 3/25⟩,
       ⟨6, (-13/100), 13/100, 13/50, 1/4⟩,
       ⟨7, (-13/50), 13/50, 51/100, 51/100⟩,
       ⟨8, (-51/100), 51/100, 51/50, 51/50⟩,
       ⟨9, (-51/50), 51/50, 41/20, 51/25⟩,
       ⟨10, (-41/20), 41/20, 41/10, 409/100⟩,
       ⟨11, (-41/10), 41/10, 819/100, 819/100⟩,
       ⟨12, (-819/100), 819/100, 819/50, 819/50⟩] := by
  have h0 : generateAmortizationSchedule (4/1000) 1200 1 =
      amortLoop 1 0 12 1 (1/250) 0 := by
    rw [generateAmortizationSchedule]
    norm_num [calculateMonthlyPayment, round2]
  have hs1 : amortLoop 1 0 12 1 (1/250) (0) =
      ⟨1, 0, 0, 1/100, 0⟩ :: amortLoop 1 0 11 2 (1/125) (1/250) := by
    rw [show (12:ℕ) = 11 + 1 from rfl, amortLoop]
    norm_num [amortStep, round2]
  have hs2 : amortLoop 1 0 11 2 (1/125) (1/250) =
      ⟨2, (-1/100), 1/100, 1/50, 1/100⟩ :: amortLoop 1 0 10 3 (2/125) (3/250) := by
    rw [show (11:ℕ) = 10 + 1 from rfl, amortLoop]
    norm_num [amortStep, round2]
  have hs3 : amortLoop 1 0 10 3 (2/125) (3/250) =
      ⟨3, (-1/50), 1/50, 3/100, 3/100⟩ :: amortLoop 1 0 9 4 (4/125) (7/250) := by
    rw [show (10:ℕ) = 9 + 1 from rfl, amortLoop]
    norm_num [amortStep, round2]
  have hs4 : amortLoop 1 0 9 4 (4/125) (7/250) =
      ⟨4, (-3/100), 3/100, 3/50, 3/50⟩ :: amortLoop 1 0 8 5 (8/125) (3/50) := by
    rw [show (9:ℕ) = 8 + 1 from rfl, amortLoop]
    norm_num [amortStep, round2]
  have hs5 : amortLoop 1 0 8 5 (8/125) (3/50) =
      ⟨5, (-3/50), 3/50, 13/100, 3/25⟩ :: amortLoop 1 0 7 6 (16/125) (31/250) := by
    rw [show (8:ℕ) = 7 + 1 from rfl, amortLoop]
    norm_num [amortStep, round2]
  have hs6 : amortLoop 1 0 7 6 (16/125) (31/250) =
      ⟨6, (-13/100), 13/100, 13/50, 1/4⟩ :: amortLoop 1 0 6 7 (32/125) (63/250) := by
    rw [show (7:ℕ) = 6 + 1 from rfl, amortLoop]
    norm_num [amortStep, round2]
  have hs7 : amortLoop 1 0 6 7 (32/125) (63/250) =
      ⟨7, (-13/50), 13/50, 51/100, 51/100⟩ :: amortLoop 1 0 5 8 (64/125) (127/250) := by
    rw [show (6:ℕ) = 5 + 1 from rfl, amortLoop]
    norm_num [amortStep, round2]
  have hs8 : amortLoop 1 0 5 8 (64/125) (127/250) =
      ⟨8, (-51/100), 51/100, 51/50, 51/50⟩ :: amortLoop 1 0 4 9 (128/125) (51/50) := by
    rw [show (5:ℕ) = 4 + 1 from rfl, amortLoop]
    norm_num [amortStep, round2]
  have hs9 : amortLoop 1 0 4 9 (128/125) (51/50) =
      ⟨9, (-51/50), 51/50, 41/20, 51/25⟩ :: amortLoop 1 0 3 10 (256/125) (511/250) := by
    rw [show (4:ℕ) = 3 + 1 from rfl, amortLoop]
    norm_num [amortStep, round2]
  have hs10 : amortLoop 1 0 3 10 (256/125) (511/250) =
      ⟨10, (-41/20), 41/20, 41/10, 409/100⟩ :: amortLoop 1 0 2 11 (512/125) (1023/250) := by
    rw [show (3:ℕ) = 2 + 1 from rfl, amortLoop]
    norm_num [amortStep, round2]
  have hs11 : amortLoop 1 0 2 11 (512/125) (1023/250) =
      ⟨11, (-41/10), 41/10, 819/100, 819/100⟩ :: amortLoop 1 0 1 12 (1024/125) (2047/250) := by
    rw [show (2:ℕ) = 1 + 1 from rfl, amortLoop]
    norm_num [amortStep, round2]
  have hs12 : amortLoop 1 0 1 12 (1024/125) (2047/250) =
      [⟨12, (-819/100), 819/100, 819/50, 819/50⟩] := by
    rw [show (1:ℕ) = 0 + 1 from rfl, amortLoop]
    norm_num [amortStep, round2, amortLoop]
  rw [h0, hs1, hs2, hs3, hs4, hs5, hs6, hs7, hs8, hs9, hs10, hs11, hs12]

/-- C3 counterexample: at `(0.004, 1200, 1)` the schedule has the right
length, but the `remainingBalance` entries strictly increase (0.01 then
0.02, …) and the final entry's remainingBalance is `16.38`, not within
`0.01` of zero — refuting the monotonicity and final-balance clauses. -/
theorem claim_C3_counterexample :
    (0:ℚ) ≤ 4/1000 ∧ (0:ℚ) ≤ 1200 ∧ 0 < 1 ∧
    (generateAmortizationSchedule (4/1000) 1200 1).length = 1 * 12 ∧
    ¬ List.Chain' (fun a b => b.remainingBalance ≤ a.remainingBalance)
        (generateAmortizationSchedule (4/1000) 1200 1) ∧
    ¬ |((generateAmortizationSchedule (4/1000) 1200 1).getLastD
        default).remainingBalance| ≤ 1/100 := by
  refine ⟨by norm_num, by norm_num, by norm_num, ?_, ?_, ?_⟩
  · rw [amortScheduleDegenerate_eq]; rfl
  · rw [amortScheduleDegenerate_eq]
    intro h
    rw [List.chain'_cons] at h
    exact absurd h.1 (by norm_num)
  · rw [amortScheduleDegenerate_eq]
    intro h
    simp only [List.getLastD_cons, List.getLastD_nil] at h
    rw [abs_of_nonneg (by norm_num)] at h
    norm_num at h

/-- C3 amended: `generateAmortizationSchedule` always produces exactly
`termYears × 12` entries; the `remainingBalance` entries are non-increasing
provided the rounded monthly payment is at least the first month's interest
`principal × monthlyRate`; and the final entry's remainingBalance is within
`0.01` of zero provided the rounded payment amortizes the compounded
principal (`amortResidual … (t×12) ≤ 0`) — without these provisos the
counterexample shows both clauses fail. -/
theorem claim_C3_amended (P r : ℚ) (t : ℕ) (hP : 0 ≤ P) (hr : 0 ≤ r)
    (ht : 0 < t) :
    (generateAmortizationSchedule P r t).length = t * 12 ∧
    (P * (r/100/12) ≤ calculateMonthlyPayment P r t →
      List.Chain' (fun a b => b.remainingBalance ≤ a.remainingBalance)
        (generateAmortizationSchedule P r t)) ∧
    (0 ≤ calculateMonthlyPayment P r t →
      amortResidual (r/100/12) (calculateMonthlyPayment P r t) P (t * 12) ≤ 0 →
      |((generateAmortizationSchedule P r t).getLastD
          default).remainingBalance| ≤ 1/100) := by
  have hmr : (0:ℚ) ≤ r/100/12 := by positivity
  refine ⟨amortLoop_length _ _ _ _ _ _, fun hM => ?_, fun h0M hres => ?_⟩
  · exact amortLoop_chain hmr _ _ _ _ hP hM
  · obtain ⟨k, hk⟩ : ∃ k, t * 12 = k + 1 := ⟨t * 12 - 1, by omega⟩
    unfold generateAmortizationSchedule
    rw [hk,
      (amortLoop_getLastD (r/100/12) (calculateMonthlyPayment P r t) default k 1 P 0).1]
    have hB0 : 0 ≤ (amortRun (r/100/12) (calculateMonthlyPayment P r t) (k+1) P 0).1 :=
      amortRun_fst_nonneg _ _ _ _ _ hP
    have hBle := amortRun_fst_le_residual hmr h0M (k+1) P 0 P (le_max_right 0 P)
    rw [← hk] at hBle
    rw [max_eq_left hres] at hBle
    rw [hk] at hBle
    have hBeq : (amortRun (r/100/12) (calculateMonthlyPayment P r t) (k+1) P 0).1 = 0 :=
      le_antisymm hBle hB0
    rw [hBeq, round2_zero]
    norm_num

/-- Witness for C3 (amended) at `(1000, 12, 1)`: the rounded payment `88.85`
exceeds the first month's interest `10` and over-amortizes the principal, so
all three conclusions hold. -/
theorem claim_C3_witness :
    (generateAmortizationSchedule 1000 12 1).length = 1 * 12 ∧
    List.Chain' (fun a b => b.remainingBalance ≤ a.remainingBalance)
      (generateAmortizationSchedule 1000 12 1) ∧
    |((generateAmortizationSchedule 1000 12 1).getLastD
        default).remainingBalance| ≤ 1/100 := by
  obtain ⟨h1, h2, h3⟩ :=
    claim_C3_amended 1000 12 1 (by norm_num) (by norm_num) (by norm_num)
  have hM : calculateMonthlyPayment 1000 12 1 = 8885/100 := by
    norm_num [calculateMonthlyPayment, round2]
  refine ⟨h1, h2 (by rw [hM]; norm_num), h3 (by rw [hM]; norm_num) ?_⟩
  rw [hM]
  norm_num [amortResidual]

/-! ## Claim C9: round-trip between `calculateTotalInterest` and the
amortization schedule -/

/-- C9 counterexample: at `(0.004, 1200, 1)` the formula-based total interest
is `0` while the schedule's final cumulative `totalInterestPaid` is `16.38`
— a divergence of `16.38`, far beyond "a few cents". -/
theorem claim_C9_counterexample :
    (0:ℚ) < 4/1000 ∧ (0:ℚ) ≤ 1200 ∧ 0 < 1 ∧
    |calculateTotalInterest (calculateMonthlyPayment (4/1000) 1200 1) 1 (4/1000) -
      ((generateAmortizationSchedule (4/1000) 1200 1).getLastD
        default).totalInterestPaid| = 819/50 ∧
    ¬ (|calculateTotalInterest (calculateMonthlyPayment (4/1000) 1200 1) 1 (4/1000) -
      ((generateAmortizationSchedule (4/1000) 1200 1).getLastD
        default).totalInterestPaid| ≤ 1) := by
  have hM : calculateMonthlyPayment (4/1000) 1200 1 = 0 := by
    norm_num [calculateMonthlyPayment, round2]
  have hTI : calculateTotalInterest 0 1 (4/1000) = 0 := by
    norm_num [calculateTotalInterest, round2]
  have hlast : ((generateAmortizationSchedule (4/1000) 1200 1).getLastD
      default).totalInterestPaid = 819/50 := by
    rw [amortScheduleDegenerate_eq]
    simp [List.getLastD_cons]
  have habs : |calculateTotalInterest (calculateMonthlyPayment (4/1000) 1200 1) 1
      (4/1000) - ((generateAmortizationSchedule (4/1000) 1200 1).getLastD
        default).totalInterestPaid| = 819/50 := by
    rw [hM, hTI, hlast, show (0:ℚ) - 819/50 = -(819/50) by ring, abs_neg,
      abs_of_nonneg (by norm_num)]
  refine ⟨by norm_num, by norm_num, by norm_num, habs, ?_⟩
  rw [habs]
  norm_num

/-- The amortization running pair computed by peeling the **last** month
instead of the first. -/
theorem amortRun_succ (monthlyRate monthlyPayment : ℚ) :
    ∀ (k : ℕ) (bal totInt : ℚ),
      amortRun monthlyRate monthlyPayment (k + 1) bal totInt =
        (amortStep monthlyRate monthlyPayment
            (amortRun monthlyRate monthlyPayment k bal totInt).1,
          (amortRun monthlyRate monthlyPayment k bal totInt).2 +
            (amortRun monthlyRate monthlyPayment k bal totInt).1 * monthlyRate) := by
  intro k
  induction k with
  | zero => intro bal ti; rfl
  | succ n ih =>
    intro bal ti
    rw [show amortRun monthlyRate monthlyPayment (n + 1 + 1) bal ti =
      amortRun monthlyRate monthlyPayment (n + 1)
        (amortStep monthlyRate monthlyPayment bal) (ti + bal * monthlyRate) from rfl]
    rw [ih]
    rw [show amortRun monthlyRate monthlyPayment (n + 1) bal ti =
      amortRun monthlyRate monthlyPayment n
        (amortStep monthlyRate monthlyPayment bal) (ti + bal * monthlyRate) from rfl]

/-- When the clamp does not fire, `amortStep` is the plain balance update. -/
theorem amortStep_of_nonneg {monthlyRate monthlyPayment bal : ℚ}
    (h : 0 ≤ bal - (monthlyPayment - bal * monthlyRate)) :
    amortStep monthlyRate monthlyPayment bal =
      bal - (monthlyPayment - bal * monthlyRate) := by
  simp only [amortStep]
  rw [if_neg (not_lt.mpr h)]

/-- Telescoping identity: while the clamp never fires, the accumulated
interest equals `k·M − (principal paid so far)`. -/
theorem amortRun_telescope (monthlyRate monthlyPayment : ℚ) :
    ∀ (k : ℕ) (bal totInt : ℚ),
      (∀ j, j < k →
        0 ≤ (amortRun monthlyRate monthlyPayment j bal totInt).1 -
          (monthlyPayment -
            (amortRun monthlyRate monthlyPayment j bal totInt).1 * monthlyRate)) →
      (amortRun monthlyRate monthlyPayment k bal totInt).2 =
        totInt + (k : ℚ) * monthlyPayment -
          (bal - (amortRun monthlyRate monthlyPayment k bal totInt).1) := by
  intro k
  induction k with
  | zero =>
    intro bal ti _
    show ti = ti + (0:ℚ) * monthlyPayment - (bal - bal)
    ring
  | succ n ih =>
    intro bal ti H
    have hihyp := ih bal ti (fun j hj => H j (by omega))
    have hstep := H n (by omega)
    rw [amortRun_succ]
    simp only
    rw [amortStep_of_nonneg hstep, hihyp]
    push_cast
    ring

/-- C9 amended: provided the schedule's balance never needs the negative
clamp, the formula total interest and the schedule's final cumulative
`totalInterestPaid` differ by at most the schedule's final residual balance
plus one cent: the "few cents" agreement holds exactly when the schedule
actually amortizes to nearly zero, and the gap equals the leftover balance in
general. -/
theorem claim_C9_amended (P r : ℚ) (t : ℕ) (hP : 0 < P) (_hr : 0 ≤ r)
    (ht : 0 < t)
    (hnc : ∀ j, j < t * 12 →
      0 ≤ (amortRun (r/100/12) (calculateMonthlyPayment P r t) j P 0).1 -
        (calculateMonthlyPayment P r t -
          (amortRun (r/100/12) (calculateMonthlyPayment P r t) j P 0).1 *
            (r/100/12))) :
    |calculateTotalInterest (calculateMonthlyPayment P r t) t P -
      ((generateAmortizationSchedule P r t).getLastD default).totalInterestPaid| ≤
    (amortRun (r/100/12) (calculateMonthlyPayment P r t) (t * 12) P 0).1 +
      1/100 := by
  obtain ⟨k, hk⟩ : ∃ k, t * 12 = k + 1 := ⟨t * 12 - 1, by omega⟩
  have hlast := (amortLoop_getLastD (r/100/12) (calculateMonthlyPayment P r t)
    default k 1 P 0).2
  have htel := amortRun_telescope (r/100/12) (calculateMonthlyPayment P r t)
    (t * 12) P 0 hnc
  rw [hk] at htel
  unfold generateAmortizationSchedule
  rw [hk, hlast, calculateTotalInterest, htel]
  have hB0 : 0 ≤ (amortRun (r/100/12) (calculateMonthlyPayment P r t) (k+1) P 0).1 :=
    amortRun_fst_nonneg _ _ _ _ _ (le_of_lt hP)
  have hcast : ((k:ℚ) + 1) = (t:ℚ) * 12 := by
    have : ((t * 12 : ℕ) : ℚ) = ((k + 1 : ℕ) : ℚ) := by rw [hk]
    push_cast at this
    linarith
  have hdiff := round2_diff_le
    (calculateMonthlyPayment P r t * (t:ℚ) * 12 - P)
    (0 + ((k:ℚ) + 1) * calculateMonthlyPayment P r t -
      (P - (amortRun (r/100/12) (calculateMonthlyPayment P r t) (k+1) P 0).1))
  have habsdiff : |calculateMonthlyPayment P r t * (t:ℚ) * 12 - P -
      (0 + ((k:ℚ) + 1) * calculateMonthlyPayment P r t -
        (P - (amortRun (r/100/12) (calculateMonthlyPayment P r t) (k+1) P 0).1))| =
      (amortRun (r/100/12) (calculateMonthlyPayment P r t) (k+1) P 0).1 := by
    rw [show calculateMonthlyPayment P r t * (t:ℚ) * 12 - P -
      (0 + ((k:ℚ) + 1) * calculateMonthlyPayment P r t -
        (P - (amortRun (r/100/12) (calculateMonthlyPayment P r t) (k+1) P 0).1)) =
      calculateMonthlyPayment P r t * ((t:ℚ) * 12 - ((k:ℚ) + 1)) -
        (amortRun (r/100/12) (calculateMonthlyPayment P r t) (k+1) P 0).1 by ring]
    rw [show (t:ℚ) * 12 - ((k:ℚ) + 1) = 0 by linarith, mul_zero, zero_sub, abs_neg,
      abs_of_nonneg hB0]
  rw [habsdiff] at hdiff
  push_cast
  exact hdiff

/-- Witness for C9 (amended) at `(1004, 12, 1)`: the rounded payment `89.20`
undershoots the exact annuity payment, the clamp never fires, and the
formula/schedule totals differ by at most the final residual balance plus one
cent. -/
theorem claim_C9_witness :
    |calculateTotalInterest (calculateMonthlyPayment 1004 12 1) 1 1004 -
      ((generateAmortizationSchedule 1004 12 1).getLastD default).totalInterestPaid| ≤
    (amortRun (12/100/12) (calculateMonthlyPayment 1004 12 1) (1 * 12) 1004 0).1 +
      1/100 := by
  have hM : calculateMonthlyPayment 1004 12 1 = 446/5 := by
    norm_num [calculateMonthlyPayment, round2]
  refine claim_C9_amended 1004 12 1 (by norm_num) (by norm_num) (by norm_num) ?_
  rw [hM]
  intro j hj
  norm_num at hj
  interval_cases j <;> norm_num [amortRun, amortStep]

/-! ## Claim C1: the debt-payment allocator -/

theorem allocateMinimums_cons (c : CreditCard) (rest : List CreditCard) (b : ℚ) :
    allocateMinimums (c :: rest) b =
      (⟨c.id, min c.minimumPayment (min b c.balance)⟩ ::
          (allocateMinimums rest (b - min c.minimumPayment (min b c.balance))).1,
        (allocateMinimums rest (b - min c.minimumPayment (min b c.balance))).2) := by
  simp only [allocateMinimums]

theorem allocateMinimums_sum (cards : List CreditCard) :
    ∀ b : ℚ,
      ((allocateMinimums cards b).1.map (·.payment)).sum +
        (allocateMinimums cards b).2 = b := by
  induction cards with
  | nil => intro b; simp [allocateMinimums]
  | cons c rest ih =>
    intro b
    rw [allocateMinimums_cons]
    simp only [List.map_cons, List.sum_cons]
    have := ih (b - min c.minimumPayment (min b c.balance))
    linarith

theorem allocateMinimums_snd_nonneg (cards : List CreditCard) :
    ∀ b : ℚ, 0 ≤ b → 0 ≤ (allocateMinimums cards b).2 := by
  induction cards with
  | nil => intro b hb; exact hb
  | cons c rest ih =>
    intro b hb
    rw [allocateMinimums_cons]
    exact ih _ (by
      have : min c.minimumPayment (min b c.balance) ≤ b :=
        le_trans (min_le_right _ _) (min_le_left _ _)
      linarith)

theorem allocateMinimums_forall₂ (cards : List CreditCard) :
    ∀ b : ℚ, (∀ c ∈ cards, 0 ≤ c.balance ∧ 0 ≤ c.minimumPayment) → 0 ≤ b →
      List.Forall₂
        (fun p c => p.cardId = c.id ∧ 0 ≤ p.payment ∧ p.payment ≤ c.balance)
        (allocateMinimums cards b).1 cards := by
  induction cards with
  | nil => intro b _ _; simp [allocateMinimums]
  | cons c rest ih =>
    intro b hc hb
    obtain ⟨hcb, hcm⟩ := hc c (List.mem_cons_self c rest)
    rw [allocateMinimums_cons]
    refine List.Forall₂.cons ⟨rfl, ?_, ?_⟩
      (ih _ (fun x hx => hc x (List.mem_cons_of_mem _ hx)) ?_)
    · exact le_min hcm (le_min hb hcb)
    · exact le_trans (min_le_right _ _) (min_le_right _ _)
    · have : min c.minimumPayment (min b c.balance) ≤ b :=
        le_trans (min_le_right _ _) (min_le_left _ _)
      linarith

theorem addExtraToFirst_cons_self (p : PaymentAllocation)
    (ps : List PaymentAllocation) (bal extra : ℚ) :
    addExtraToFirst p.cardId bal extra (p :: ps) =
      { p with payment := p.payment + min extra (bal - p.payment) } :: ps := by
  simp [addExtraToFirst]

theorem sortByStrategy_perm (strategy : Strategy) (cards : List CreditCard) :
    (sortByStrategy strategy cards).Perm cards := by
  cases strategy
  · exact List.mergeSort_perm cards _
  · exact List.mergeSort_perm cards _

theorem calculateDebtAvalanche_head_max (cards : List CreditCard)
    (pc : CreditCard) (rest : List CreditCard)
    (h : calculateDebtAvalanche cards = pc :: rest) :
    ∀ c ∈ cards, c.interestRate ≤ pc.interestRate := by
  intro c hc
  have hmem : c ∈ calculateDebtAvalanche cards := by
    unfold calculateDebtAvalanche
    rw [List.mem_mergeSort]
    exact hc
  rw [h] at hmem
  rcases List.mem_cons.mp hmem with rfl | htail
  · exact le_refl _
  · have hs := @List.sorted_mergeSort CreditCard
      (fun a b : CreditCard => decide (b.interestRate ≤ a.interestRate))
      (fun a b c hab hbc => by
        simp only [decide_eq_true_eq] at hab hbc ⊢
        exact le_trans hbc hab)
      (fun a b => by
        simp only [Bool.or_eq_true, decide_eq_true_eq]
        exact le_total b.interestRate a.interestRate)
      cards
    rw [show cards.mergeSort
        (fun a b : CreditCard => decide (b.interestRate ≤ a.interestRate)) =
        calculateDebtAvalanche cards from rfl, h] at hs
    have := (List.pairwise_cons.mp hs).1 c htail
    simpa using this

theorem calculateDebtSnowball_head_min (cards : List CreditCard)
    (pc : CreditCard) (rest : List CreditCard)
    (h : calculateDebtSnowball cards = pc :: rest) :
    ∀ c ∈ cards, pc.balance ≤ c.balance := by
  intro c hc
  have hmem : c ∈ calculateDebtSnowball cards := by
    unfold calculateDebtSnowball
    rw [List.mem_mergeSort]
    exact hc
  rw [h] at hmem
  rcases List.mem_cons.mp hmem with rfl | htail
  · exact le_refl _
  · have hs := @List.sorted_mergeSort CreditCard
      (fun a b : CreditCard => decide (a.balance ≤ b.balance))
      (fun a b c hab hbc => by
        simp only [decide_eq_true_eq] at hab hbc ⊢
        exact le_trans hab hbc)
      (fun a b => by
        simp only [Bool.or_eq_true, decide_eq_true_eq]
        exact le_total a.balance b.balance)
      cards
    rw [show cards.mergeSort
        (fun a b : CreditCard => decide (a.balance ≤ b.balance)) =
        calculateDebtSnowball cards from rfl, h] at hs
    have := (List.pairwise_cons.mp hs).1 c htail
    simpa using this

theorem calculateOptimalPaymentDistribution_eq (cards : List CreditCard)
    (budget : ℚ) (strategy : Strategy) :
    calculateOptimalPaymentDistribution cards budget strategy =
      if 0 < (allocateMinimums (sortByStrategy strategy cards) budget).2 then
        match sortByStrategy strategy cards with
        | [] => (allocateMinimums (sortByStrategy strategy cards) budget).1
        | pc :: _ =>
          addExtraToFirst pc.id pc.balance
            (allocateMinimums (sortByStrategy strategy cards) budget).2
            (allocateMinimums (sortByStrategy strategy cards) budget).1
      else (allocateMinimums (sortByStrategy strategy cards) budget).1 := by
  simp only [calculateOptimalPaymentDistribution]

/-- C1: for cards with non-negative balances and minimum payments and a
non-negative budget, `calculateOptimalPaymentDistribution` returns one
allocation per card (positionally matching the strategy-sorted order, which
is a permutation of the input), each with `0 ≤ payment ≤ balance`; the
payments sum to at most the budget; any budget left after the minimum phase
is added entirely to the first card in priority order, capped by that card's
balance; and that first card has the highest interestRate (avalanche) or the
lowest balance (snowball) among all cards. -/
theorem claim_C1 (cards : List CreditCard) (budget : ℚ) (strategy : Strategy)
    (hcards : ∀ c ∈ cards, 0 ≤ c.balance ∧ 0 ≤ c.minimumPayment)
    (hbudget : 0 ≤ budget) :
    List.Forall₂
      (fun p c => p.cardId = c.id ∧ 0 ≤ p.payment ∧ p.payment ≤ c.balance)
      (calculateOptimalPaymentDistribution cards budget strategy)
      (sortByStrategy strategy cards) ∧
    (sortByStrategy strategy cards).Perm cards ∧
    ((calculateOptimalPaymentDistribution cards budget strategy).map
      (·.payment)).sum ≤ budget ∧
    (∀ pc rest, sortByStrategy strategy cards = pc :: rest →
      0 < (allocateMinimums (pc :: rest) budget).2 →
      ∃ p0 ps', (allocateMinimums (pc :: rest) budget).1 = p0 :: ps' ∧
        calculateOptimalPaymentDistribution cards budget strategy =
          ⟨p0.cardId, p0.payment +
            min (allocateMinimums (pc :: rest) budget).2
              (pc.balance - p0.payment)⟩ :: ps') ∧
    (∀ pc rest, sortByStrategy strategy cards = pc :: rest → ∀ c ∈ cards,
      (strategy = .avalanche → c.interestRate ≤ pc.interestRate) ∧
      (strategy = .snowball → pc.balance ≤ c.balance)) := by
  have hperm : (sortByStrategy strategy cards).Perm cards :=
    sortByStrategy_perm strategy cards
  have hsorted_cards : ∀ c ∈ sortByStrategy strategy cards,
      0 ≤ c.balance ∧ 0 ≤ c.minimumPayment :=
    fun c hc => hcards c (hperm.mem_iff.mp hc)
  have hf2 := allocateMinimums_forall₂ (sortByStrategy strategy cards) budget
    hsorted_cards hbudget
  have hsum := allocateMinimums_sum (sortByStrategy strategy cards) budget
  have hrem0 := allocateMinimums_snd_nonneg (sortByStrategy strategy cards)
    budget hbudget
  have hpriority : ∀ pc rest, sortByStrategy strategy cards = pc :: rest →
      ∀ c ∈ cards,
        (strategy = .avalanche → c.interestRate ≤ pc.interestRate) ∧
        (strategy = .snowball → pc.balance ≤ c.balance) := by
    intro pc rest hsort c hc
    constructor
    · rintro rfl
      exact calculateDebtAvalanche_head_max cards pc rest hsort c hc
    · rintro rfl
      exact calculateDebtSnowball_head_min cards pc rest hsort c hc
  by_cases hpos : 0 < (allocateMinimums (sortByStrategy strategy cards) budget).2
  · rcases hsort : sortByStrategy strategy cards with _ | ⟨pc, rest⟩
    · have hres : calculateOptimalPaymentDistribution cards budget strategy = [] := by
        rw [calculateOptimalPaymentDistribution_eq, hsort]
        simp [allocateMinimums]
      rw [hsort] at hf2
      refine ⟨by rw [hres]; exact List.Forall₂.nil, hsort ▸ hperm,
        by rw [hres]; simp only [List.map_nil, List.sum_nil]; exact hbudget, ?_, ?_⟩
      · intro pc rest hcontra
        exact absurd hcontra (by simp)
      · intro pc rest hcontra
        exact absurd hcontra (by simp)
    · rw [hsort] at hf2 hsum hrem0 hpos
      rw [allocateMinimums_cons] at hf2 hsum
      dsimp only at hf2 hsum
      simp only [List.map_cons, List.sum_cons] at hsum
      rcases List.forall₂_cons.mp hf2 with ⟨⟨_, hm0, hmle⟩, htail⟩
      dsimp only at hm0 hmle
      have hres : calculateOptimalPaymentDistribution cards budget strategy =
          ⟨pc.id, min pc.minimumPayment (min budget pc.balance) +
            min (allocateMinimums (pc :: rest) budget).2
              (pc.balance - min pc.minimumPayment (min budget pc.balance))⟩ ::
          (allocateMinimums rest
            (budget - min pc.minimumPayment (min budget pc.balance))).1 := by
        rw [calculateOptimalPaymentDistribution_eq, hsort, if_pos hpos]
        rw [allocateMinimums_cons]
        exact addExtraToFirst_cons_self
          ⟨pc.id, min pc.minimumPayment (min budget pc.balance)⟩ _ _ _
      have hA : (allocateMinimums (pc :: rest) budget).2 =
          (allocateMinimums rest
            (budget - min pc.minimumPayment (min budget pc.balance))).2 := by
        rw [allocateMinimums_cons]
      have hminr : min (allocateMinimums (pc :: rest) budget).2
          (pc.balance - min pc.minimumPayment (min budget pc.balance)) ≤
          (allocateMinimums (pc :: rest) budget).2 := min_le_left _ _
      have hminnonneg : 0 ≤ min (allocateMinimums (pc :: rest) budget).2
          (pc.balance - min pc.minimumPayment (min budget pc.balance)) :=
        le_min (le_of_lt hpos) (by linarith)
      refine ⟨?_, hsort ▸ hperm, ?_, ?_,
        fun pc' rest' h c hc => hpriority pc' rest' (hsort.trans h) c hc⟩
      · rw [hres]
        refine List.Forall₂.cons ⟨rfl, ?_, ?_⟩ htail
        · exact add_nonneg hm0 hminnonneg
        · dsimp only
          have := min_le_right (allocateMinimums (pc :: rest) budget).2
            (pc.balance - min pc.minimumPayment (min budget pc.balance))
          linarith
      · rw [hres]
        simp only [List.map_cons, List.sum_cons]
        rw [hA]
        rw [hA] at hminr
        linarith
      · intro pc' rest' hsort' hremp
        injection hsort' with h1 h2
        subst h1
        subst h2
        refine ⟨⟨pc.id, min pc.minimumPayment (min budget pc.balance)⟩,
          (allocateMinimums rest
            (budget - min pc.minimumPayment (min budget pc.balance))).1,
          by rw [allocateMinimums_cons], ?_⟩
        exact hres
  · have hres : calculateOptimalPaymentDistribution cards budget strategy =
        (allocateMinimums (sortByStrategy strategy cards) budget).1 := by
      rw [calculateOptimalPaymentDistribution_eq, if_neg hpos]
    refine ⟨hres ▸ hf2, hperm, ?_, ?_, hpriority⟩
    · rw [hres]
      linarith
    · intro pc rest hsort hremp
      rw [hsort] at hpos
      exact absurd hremp hpos

/-- Witness for C1 at two cards (`a`: balance 500, rate 20, min 25; `b`:
balance 1000, rate 15, min 30) with budget 300 under avalanche: the returned
payments sum to at most the budget. -/
theorem claim_C1_witness :
    ((calculateOptimalPaymentDistribution
      [⟨"a", 500, 20, 25⟩, ⟨"b", 1000, 15, 30⟩] 300 .avalanche).map
        (·.payment)).sum ≤ 300 :=
  (claim_C1 [⟨"a", 500, 20, 25⟩, ⟨"b", 1000, 15, 30⟩] 300 .avalanche
    (by
      intro c hc
      fin_cases hc <;> exact ⟨by norm_num, by norm_num⟩)
    (by norm_num)).2.2.1

end FinCalc
